import Mathlib

/-!
Verification of the ConnectHub client (React Native screens under
`frontend/app`) and, where the backend Events/Notifications services are
referenced but their server code is not part of the sources here, of a model
of those services taken from the specification.

Each definition in the first half of this file is a shallow embedding of one
function of the source; theorems about them follow in the second half.
-/

namespace ConnectHub

/-- User roles, `role ∈ {admin, trainer, mitglied, gast}` (data model, and the
role strings compared against in the client screens). -/
inductive Role where
  | admin
  | trainer
  | mitglied
  | gast
deriving DecidableEq

/-- The user record as the client screens see it (`interface User` in
`admin/members.tsx` and the auth context). -/
structure User where
  id : String
  name : String
  email : String
  role : Role
deriving DecidableEq

/-- From `frontend/app/(tabs)/events.tsx` line 78:
`const canCreateEvent = user?.role === 'admin' || user?.role === 'trainer';`
`user` may be absent (no authenticated user), hence `Option User`. -/
def canCreateEvent (user : Option User) : Bool :=
  decide (user.map User.role = some Role.admin)
    || decide (user.map User.role = some Role.trainer)

/-- From `frontend/app/(tabs)/groups.tsx` line 80:
`const canCreateGroup = user?.role === 'admin' || user?.role === 'trainer';` -/
def canCreateGroup (user : Option User) : Bool :=
  decide (user.map User.role = some Role.admin)
    || decide (user.map User.role = some Role.trainer)

/-- What `renderMember` in `admin/members.tsx` produces for one list entry:
the `disabled` prop of the member card and the member id handed to
`changeRole` by the press handler (`none` when the handler does not call
`changeRole`). -/
structure RenderedMember where
  disabled : Bool
  onPressTarget : Option String
deriving DecidableEq

/-- From `admin/members.tsx` lines 89-98 (`renderMember`):
`const isCurrentUser = item.id === user?.id;`
`onPress={() => !isCurrentUser && changeRole(item)}` and
`disabled={isCurrentUser}`.  `changeRole(member)` issues
`PUT /api/users/${member.id}/role?...`, so the press target is `item.id`. -/
def renderMember (user : Option User) (item : User) : RenderedMember :=
  let isCurrentUser := decide (some item.id = user.map User.id)
  { disabled := isCurrentUser
    onPressTarget := if isCurrentUser then none else some item.id }

/-- Modelled from the spec: the backend Authorization Policy is not among the
sources (only the client screens are); §4.1 states "`changeRole`: allowed for
{admin} only; an admin may not be prevented from changing their own role by
this function (higher-level UI restricts self-edits; policy itself is
role-only)."  Being role-only, the policy takes only the actor's role. -/
def changeRolePolicy (actorRole : Role) : Bool :=
  decide (actorRole = Role.admin)

/-- JavaScript `String.prototype.trim()` as the screens call it: strips
leading and trailing whitespace. -/
def jsTrim (s : String) : String :=
  String.mk (((s.data.dropWhile Char.isWhitespace).reverse.dropWhile
      Char.isWhitespace).reverse)

/-- A chat message as the client sees it (`interface Message` in
`group/[id].tsx`). -/
structure Message where
  id : String
  content : String
  sender_id : String
  sender_name : String
  created_at : String
deriving DecidableEq

/-- The local state of the group-chat screen that `sendMessage` touches:
the cached message list and the draft in the input field. -/
structure ChatState where
  messages : List Message
  newMessage : String
deriving DecidableEq

/-- From `group/[id].tsx` lines 81-99 (`sendMessage`): returns immediately when
`!newMessage.trim()` (empty or all-whitespace draft), otherwise POSTs
`{ content: newMessage.trim() }`, appends the response to `messages` and
clears the draft.  The second component is the content of the POST request
issued (`none` when no request is made); `response` is the message record the
server returns. -/
def sendMessage (s : ChatState) (response : Message) : ChatState × Option String :=
  if jsTrim s.newMessage = "" then (s, none)
  else ({ messages := s.messages ++ [response], newMessage := "" },
        some (jsTrim s.newMessage))

/-- From `group/[id].tsx` line 205: the chat `TextInput` has `maxLength={1000}`. -/
def chatInputMaxLength : Nat := 1000

/-- From `group/[id].tsx` line 52: `setInterval(loadMessages, 5000)` — the poll
interval of the group-chat screen, in milliseconds. -/
def messagePollIntervalMs : Nat := 5000

/-- From `group/[id].tsx` lines 72-79 (`loadMessages`): each poll GETs
`/api/groups/${id}/messages` and does `setMessages(response.data)` — the
response replaces the local list wholesale. -/
def loadMessages (_messages response : List Message) : List Message :=
  response

/-- A notification as the client sees it (`interface Notification` in the
notifications screen). -/
structure Notification where
  id : String
  type : String
  message : String
  read : Bool
  created_at : String
  group_id : Option String
  event_id : Option String
deriving DecidableEq

/-- Notifications screen, `markAsRead`:
`setNotifications(notifications.map((n) => (n.id === id ? { ...n, read: true } : n)))`. -/
def markAsRead (id : String) (l : List Notification) : List Notification :=
  l.map (fun n => if n.id = id then { n with read := true } else n)

/-- Notifications screen, `markAllAsRead`:
`setNotifications(notifications.map((n) => ({ ...n, read: true })))`. -/
def markAllAsRead (l : List Notification) : List Notification :=
  l.map (fun n => { n with read := true })

/-- Notifications screen, line 108:
`const unreadCount = notifications.filter((n) => !n.read).length;`. -/
def unreadCount (l : List Notification) : Nat :=
  (l.filter (fun n => !n.read)).length

/-- From `event/[id].tsx` lines 136-138 and `(tabs)/events.tsx` lines 83-85
(identical expressions):
`const spotsLeft = event.max_participants ? event.max_participants - (event.attendees?.length || 0) : null;`
JavaScript truthiness: the condition is false for an absent
`max_participants` AND for the number `0`, so both yield `null`. -/
def spotsLeft (maxParticipants : Option Int) (attendees : List String) : Option Int :=
  match maxParticipants with
  | none => none
  | some k => if k = 0 then none else some (k - attendees.length)

/-- The event fields `getAttendanceStatus` in `(tabs)/events.tsx` reads. -/
structure EventView where
  attendees : List String
  declined : List String
deriving DecidableEq

/-- From `(tabs)/events.tsx` lines 72-76 (`getAttendanceStatus`):
`if (event.attendees?.includes(user?.id || '')) return 'attending';`
`if (event.declined?.includes(user?.id || '')) return 'declined';`
`return 'pending';` -/
def getAttendanceStatus (userId : Option String) (e : EventView) : String :=
  let uid := userId.getD ""
  if e.attendees.contains uid then "attending"
  else if e.declined.contains uid then "declined"
  else "pending"

/-- Modelled from the spec: the backend Events service (the FastAPI server
referenced by the install scripts) is not among the sources.  Server-side
state of one event, data model §3: "attendees: set of User id, declined: set
of User id" with optional `maxParticipants`. -/
structure EventState where
  attendees : Finset String
  declined : Finset String
  maxParticipants : Option Nat
deriving DecidableEq

/-- The error `attend` can fail with (§7 taxonomy: `Capacity`, event full). -/
inductive AttendError where
  | Capacity
deriving DecidableEq

/-- Modelled from the spec: "`maxParticipants` set and current attendee
count ≥ limit" — the capacity condition of `attend` (§4.2). -/
def eventFull (e : EventState) : Bool :=
  match e.maxParticipants with
  | some k => decide (k ≤ e.attendees.card)
  | none => false

/-- Modelled from the spec: backend Events service not among the sources.
§4.2: "`attend(eventId, userId)`: if `maxParticipants` set and current
attendee count ≥ limit and userId not already attending, fails with
`Capacity`; otherwise moves userId into `attendees`, removes from `declined`
if present (mutually exclusive sets)."  On failure the event is unchanged. -/
def attend (uid : String) (e : EventState) : Except AttendError EventState :=
  if eventFull e = true ∧ uid ∉ e.attendees then
    Except.error AttendError.Capacity
  else
    Except.ok { e with attendees := insert uid e.attendees,
                       declined := e.declined.erase uid }

/-- Modelled from the spec: backend Events service not among the sources.
§4.2: "`decline` is the mirror operation" — moves userId into `declined`,
removes from `attendees` if present; no capacity check applies to declining. -/
def decline (uid : String) (e : EventState) : EventState :=
  { e with declined := insert uid e.declined,
           attendees := e.attendees.erase uid }

/-- One RSVP call against an event: `POST .../attend` or `POST .../decline`
by user `u`. -/
inductive RSVPCall where
  | attendCall (u : String)
  | declineCall (u : String)
deriving DecidableEq

/-- The event state after one RSVP call; a `Capacity` failure leaves the
event unchanged. -/
def applyRSVP (e : EventState) (c : RSVPCall) : EventState :=
  match c with
  | RSVPCall.attendCall u =>
      match attend u e with
      | Except.ok e2 => e2
      | Except.error _ => e
  | RSVPCall.declineCall u => decline u e

/-- The event state after a sequence of attend/decline calls. -/
def runRSVP (e : EventState) (cs : List RSVPCall) : EventState :=
  cs.foldl applyRSVP e

/-- A sequence of `attend` calls that stops at the first failure. -/
def attendAll (e : EventState) (us : List String) : Except AttendError EventState :=
  match us with
  | [] => Except.ok e
  | u :: rest =>
      match attend u e with
      | Except.ok e2 => attendAll e2 rest
      | Except.error err => Except.error err

/-- The form state of the create-event screen (`CreateEvent`); every field is
a `TextInput` string. -/
structure EventForm where
  title : String
  description : String
  date : String
  time : String
  location : String
  maxParticipants : String
deriving DecidableEq

/-- The JSON body `handleCreate` POSTs to `/api/events`.  `max_participants`
is produced by `parseInt(maxParticipants)` (an external library call) when
the raw field is non-empty and is `null` otherwise; the request is recorded
here with the raw string that call parses. -/
structure EventRequest where
  title : String
  description : Option String
  date : String
  time : Option String
  location : Option String
  max_participants_input : Option String
deriving DecidableEq

/-- The test `dateRegex.test(date)` with `const dateRegex = /^\d{4}-\d{2}-\d{2}$/;`
(create-event screen, line 41): exactly ten characters, digits except for
dashes at positions 4 and 7. -/
def matchesDateFormat (s : String) : Bool :=
  match s.data with
  | [y1, y2, y3, y4, c1, m1, m2, c2, d1, d2] =>
      y1.isDigit && y2.isDigit && y3.isDigit && y4.isDigit
        && c1 == '-' && m1.isDigit && m2.isDigit
        && c2 == '-' && d1.isDigit && d2.isDigit
  | _ => false

/-- The function `handleCreate` (create-event screen, lines 30-56): alerts and returns
without a request when the trimmed title is empty, when the trimmed date is
empty, or when the date fails `dateRegex.test` (tested on the raw `date`);
otherwise POSTs the body.  `x.trim() || null` is `null` exactly when the
trimmed string is empty. -/
def handleCreate (f : EventForm) : Option EventRequest :=
  if jsTrim f.title = "" then none
  else if jsTrim f.date = "" then none
  else if matchesDateFormat f.date = false then none
  else some
    { title := jsTrim f.title
      description := if jsTrim f.description = "" then none else some (jsTrim f.description)
      date := jsTrim f.date
      time := if jsTrim f.time = "" then none else some (jsTrim f.time)
      location := if jsTrim f.location = "" then none else some (jsTrim f.location)
      max_participants_input :=
        if f.maxParticipants = "" then none else some f.maxParticipants }

/-- A concrete message record, used to instantiate theorems. -/
def sampleMessage : Message :=
  { id := "m1", content := "Hallo", sender_id := "u1", sender_name := "Anna",
    created_at := "2025-01-01T10:00:00" }

/-- A concrete notification record, used to instantiate theorems. -/
def sampleNotification : Notification :=
  { id := "n1", type := "new_message", message := "Neue Nachricht", read := false,
    created_at := "2025-01-01T10:00:00", group_id := some "g1", event_id := none }

/-- A concrete admin user, used to instantiate theorems. -/
def sampleAdmin : User :=
  { id := "u1", name := "Alex", email := "alex@verein.de", role := Role.admin }

/-! ## Theorems -/

/-- C1: `createGroup` and `createEvent` are gated to admin and trainer: for
every authenticated user the client predicates `canCreateEvent` and
`canCreateGroup` hold exactly when the user's role is `admin` or `trainer`,
and are false for `mitglied` and `gast`. -/
theorem create_permissions_role_gate (u : User) :
    (canCreateEvent (some u) = true ↔ (u.role = Role.admin ∨ u.role = Role.trainer))
    ∧ (canCreateGroup (some u) = true ↔ (u.role = Role.admin ∨ u.role = Role.trainer)) := by
  cases u with
  | mk id name email role =>
      cases role <;> simp [canCreateEvent, canCreateGroup]

/-- C4: the member-management screen never invokes `changeRole` on the
actor's own user: when the listed member's id equals the current user's id,
the card is disabled and its press handler passes no member to `changeRole`;
whenever the handler does pass a member id, that id differs from the actor's;
and the (spec-modelled) policy is role-only, allowing exactly admins. -/
theorem member_list_blocks_self_role_change (user : Option User) (item : User) :
    (user.map User.id = some item.id →
        (renderMember user item).disabled = true
        ∧ (renderMember user item).onPressTarget = none)
    ∧ (∀ t, (renderMember user item).onPressTarget = some t →
        user.map User.id ≠ some t)
    ∧ (∀ r : Role, changeRolePolicy r = true ↔ r = Role.admin) := by
  refine ⟨?_, ?_, ?_⟩
  · intro h
    simp [renderMember, h]
  · intro t ht
    by_cases h : some item.id = user.map User.id
    · simp [renderMember, h] at ht
    · simp [renderMember, h] at ht
      intro hcontra
      exact h (by rw [ht, hcontra])
  · intro r
    cases r <;> simp [changeRolePolicy]

/-- Closed instance of C4's theorem: with the actor `u1` listed, the entry
for `u1` is disabled and presses call `changeRole` on nobody. -/
theorem member_list_blocks_self_role_change_witness :
    ((some sampleAdmin).map User.id = some sampleAdmin.id)
    ∧ (renderMember (some sampleAdmin) sampleAdmin).disabled = true
    ∧ (renderMember (some sampleAdmin) sampleAdmin).onPressTarget = none := by
  refine ⟨rfl, ?_⟩
  have h := (member_list_blocks_self_role_change (some sampleAdmin) sampleAdmin).1 rfl
  exact h

/-- C5: `sendMessage` issues a message-create request only for a non-empty
trimmed draft — an empty or all-whitespace draft produces no request and no
state change — and the request carries the trimmed content; the chat input's
maximum length is 1000 characters. -/
theorem send_message_requires_content (s : ChatState) (r : Message) :
    (jsTrim s.newMessage = "" → sendMessage s r = (s, none))
    ∧ (jsTrim s.newMessage ≠ "" → (sendMessage s r).2 = some (jsTrim s.newMessage))
    ∧ chatInputMaxLength = 1000 := by
  refine ⟨?_, ?_, rfl⟩ <;> intro h <;> simp [sendMessage, h]

/-- Closed instance of C5's theorem: a whitespace draft sends nothing and a
real draft sends its trimmed content. -/
theorem send_message_requires_content_witness :
    (jsTrim "   " = ""
      ∧ sendMessage ⟨[], "   "⟩ sampleMessage = (⟨[], "   "⟩, none))
    ∧ (jsTrim " Hallo " ≠ ""
      ∧ (sendMessage ⟨[], " Hallo "⟩ sampleMessage).2 = some "Hallo") :=
  ⟨⟨by decide, (send_message_requires_content ⟨[], "   "⟩ sampleMessage).1 (by decide)⟩,
   ⟨by decide, (send_message_requires_content ⟨[], " Hallo "⟩ sampleMessage).2.1 (by decide)⟩⟩

/-- C6: `markAllAsRead` leaves every notification read, so `unreadCount` of
the result is 0, and the operation is idempotent. -/
theorem mark_all_read_clears_unread (l : List Notification) :
    unreadCount (markAllAsRead l) = 0
    ∧ markAllAsRead (markAllAsRead l) = markAllAsRead l := by
  constructor
  · induction l with
    | nil => rfl
    | cons n rest _ => simp [markAllAsRead, unreadCount]
  · induction l with
    | nil => rfl
    | cons n rest _ => simp [markAllAsRead]

/-- C7: the group-chat screen polls at a fixed five-second interval
(`setInterval(loadMessages, 5000)`), and every poll replaces the local
message list with the fetched response. -/
theorem chat_polling_five_seconds :
    messagePollIntervalMs = 5000
    ∧ ∀ (s r : List Message), loadMessages s r = r :=
  ⟨rfl, fun _ _ => rfl⟩

/-- C9: `markAsRead id` preserves the length of the list; pointwise it keeps
every field except `read` of every notification, sets `read` on exactly the
notifications whose id matches, and leaves `read` alone otherwise; when no
notification carries the id the list is unchanged. -/
theorem mark_as_read_frame (id : String) (l : List Notification) :
    ((∀ n ∈ l, n.id ≠ id) → markAsRead id l = l)
    ∧ (markAsRead id l).length = l.length
    ∧ ∀ p ∈ l.zip (markAsRead id l),
        p.2.id = p.1.id ∧ p.2.type = p.1.type ∧ p.2.message = p.1.message
        ∧ p.2.created_at = p.1.created_at ∧ p.2.group_id = p.1.group_id
        ∧ p.2.event_id = p.1.event_id
        ∧ p.2.read = (if p.1.id = id then true else p.1.read) := by
  refine ⟨?_, by simp [markAsRead], ?_⟩
  · intro hnone
    induction l with
    | nil => rfl
    | cons n rest ih =>
        have hn : n.id ≠ id := hnone n (List.mem_cons_self n rest)
        have hrest := ih (fun m hm => hnone m (List.mem_cons_of_mem n hm))
        simpa [markAsRead, hn] using hrest
  · induction l with
    | nil => intro p hp; cases hp
    | cons n rest ih =>
        intro p hp
        simp [markAsRead, List.zip] at hp ⊢
        rcases hp with hp | hp
        · by_cases hn : n.id = id <;> simp [hp, hn]
        · have := ih p (by simpa [markAsRead, List.zip] using hp)
          simpa using this

/-- Closed instance of C9's theorem: a list whose only notification has a
different id is unchanged, and the matching notification has exactly its
`read` field set. -/
theorem mark_as_read_frame_witness :
    ((∀ n ∈ [sampleNotification], n.id ≠ "n2")
      ∧ markAsRead "n2" [sampleNotification] = [sampleNotification])
    ∧ ((sampleNotification, { sampleNotification with read := true })
          ∈ [sampleNotification].zip (markAsRead "n1" [sampleNotification])
      ∧ ({ sampleNotification with read := true } : Notification).read =
          (if sampleNotification.id = "n1" then true else sampleNotification.read)) :=
  ⟨⟨by decide, (mark_as_read_frame "n2" [sampleNotification]).1 (by decide)⟩,
   ⟨by decide,
    ((mark_as_read_frame "n1" [sampleNotification]).2.2
        (sampleNotification, { sampleNotification with read := true })
        (by decide)).2.2.2.2.2.2⟩⟩

/-- C10 counterexample: the claim states that for every event with
`max_participants` set the displayed free-spots value is
`max_participants - |attendees|`; at `max_participants = 0` (set, but falsy
in JavaScript) the code computes no value at all. -/
theorem spots_left_zero_max_counterexample :
    spotsLeft (some 0) ([] : List String) ≠
      some ((0 : Int) - (([] : List String).length : Int)) := by
  decide

/-- C10 (amended): for every event with `max_participants` set to a nonzero
value `k`, the free-spots value is exactly `k - |attendees|` with no clamping
(negative when attendees exceed `k`); with `max_participants` unset — or set
to `0`, which JavaScript truthiness treats the same — no value is computed. -/
theorem spots_left_exact (k : Int) (attendees : List String) (h : k ≠ 0) :
    spotsLeft (some k) attendees = some (k - attendees.length)
    ∧ spotsLeft none attendees = none :=
  ⟨by simp [spotsLeft, h], rfl⟩

/-- Closed instance of C10's amended theorem: three places and four
attendees give minus one free spot, and an unset limit gives none. -/
theorem spots_left_exact_witness :
    ((3 : Int) ≠ 0)
    ∧ spotsLeft (some 3) ["a", "b", "c", "d"] = some (-1)
    ∧ spotsLeft none ["a", "b", "c", "d"] = none := by
  refine ⟨by decide, ?_⟩
  have h := spots_left_exact 3 ["a", "b", "c", "d"] (by decide)
  exact ⟨by rw [h.1]; decide, h.2⟩

/-- C8: the create-event screen submits a request only for well-formed
input: an empty trimmed title, or a date failing `^\d\x7b4\x7d-\d\x7b2\x7d-\d\x7b2\x7d$`,
makes `handleCreate` return without issuing the POST. -/
theorem event_create_validation (f : EventForm)
    (h : jsTrim f.title = "" ∨ matchesDateFormat f.date = false) :
    handleCreate f = none := by
  unfold handleCreate
  rcases h with h | h
  · simp [h]
  · by_cases ht : jsTrim f.title = ""
    · simp [ht]
    · by_cases hd : jsTrim f.date = "" <;> simp [ht, hd, h]

/-- Closed instance of C8's theorem: a German-format date is rejected before
any request is built. -/
theorem event_create_validation_witness :
    (jsTrim "Training" = "" ∨ matchesDateFormat "15.07.2025" = false)
    ∧ handleCreate ⟨"Training", "", "15.07.2025", "", "", ""⟩ = none :=
  ⟨Or.inr (by decide),
   event_create_validation ⟨"Training", "", "15.07.2025", "", "", ""⟩
     (Or.inr (by decide))⟩

/-- Helper: one `attend` call that succeeds keeps `attendees` and `declined`
disjoint. -/
lemma attend_ok_disjoint {u : String} {e e2 : EventState}
    (hok : attend u e = Except.ok e2)
    (h : Disjoint e.attendees e.declined) :
    Disjoint e2.attendees e2.declined := by
  unfold attend at hok
  split at hok
  · exact absurd hok (by simp)
  · injection hok with he
    subst he
    simp only [Finset.disjoint_insert_left]
    exact ⟨Finset.not_mem_erase u e.declined,
      Disjoint.mono_right (Finset.erase_subset u e.declined) h⟩

/-- Helper: `decline` keeps `attendees` and `declined` disjoint. -/
lemma decline_disjoint {u : String} {e : EventState}
    (h : Disjoint e.attendees e.declined) :
    Disjoint (decline u e).attendees (decline u e).declined := by
  unfold decline
  simp only [Finset.disjoint_insert_right]
  exact ⟨Finset.not_mem_erase u e.attendees,
    Disjoint.mono_left (Finset.erase_subset u e.attendees) h⟩

/-- Helper: one RSVP call keeps the two sets disjoint (a `Capacity` failure
leaves the state unchanged). -/
lemma applyRSVP_disjoint (e : EventState) (c : RSVPCall)
    (h : Disjoint e.attendees e.declined) :
    Disjoint (applyRSVP e c).attendees (applyRSVP e c).declined := by
  cases c with
  | attendCall u =>
      cases hres : attend u e with
      | ok e2 => simpa [applyRSVP, hres] using attend_ok_disjoint hres h
      | error err => simpa [applyRSVP, hres] using h
  | declineCall u => exact decline_disjoint h

/-- Helper: any sequence of attend/decline calls keeps the two sets
disjoint. -/
lemma runRSVP_disjoint (cs : List RSVPCall) (e : EventState)
    (h : Disjoint e.attendees e.declined) :
    Disjoint (runRSVP e cs).attendees (runRSVP e cs).declined := by
  induction cs generalizing e with
  | nil => exact h
  | cons c rest ih =>
      simp only [runRSVP, List.foldl_cons] at ih ⊢
      exact ih (applyRSVP e c) (applyRSVP_disjoint e c h)

/-- C2: from a state with `attendees ∩ declined = ∅`, any sequence of attend
and decline calls preserves the disjointness; `attend(E,U)` followed by
`decline(E,U)` leaves U in `declined` and out of `attendees`; and the
client's `getAttendanceStatus` returns `attending` whenever the user is in
`attendees`, consulting `declined` only otherwise. -/
theorem rsvp_mutual_exclusion (e : EventState) (cs : List RSVPCall) (u : String)
    (userId : Option String) (v : EventView) :
    (Disjoint e.attendees e.declined →
        Disjoint (runRSVP e cs).attendees (runRSVP e cs).declined)
    ∧ (u ∈ (applyRSVP (applyRSVP e (RSVPCall.attendCall u))
              (RSVPCall.declineCall u)).declined
        ∧ u ∉ (applyRSVP (applyRSVP e (RSVPCall.attendCall u))
              (RSVPCall.declineCall u)).attendees)
    ∧ (userId.getD "" ∈ v.attendees → getAttendanceStatus userId v = "attending") := by
  refine ⟨runRSVP_disjoint cs e, ⟨?_, ?_⟩, ?_⟩
  · exact Finset.mem_insert_self u _
  · exact Finset.not_mem_erase u _
  · intro h
    simp only [getAttendanceStatus]
    rw [if_pos]
    exact List.elem_eq_true_of_mem h

/-- Closed instance of C2's theorem: an attend of `a` then a decline of `b`
from an empty event keeps the sets disjoint, `a`'s attend-then-decline ends
declined, and a user listed in both sets of a view is shown `attending`. -/
theorem rsvp_mutual_exclusion_witness :
    Disjoint (∅ : Finset String) (∅ : Finset String)
    ∧ Disjoint
        (runRSVP ⟨∅, ∅, none⟩
          [RSVPCall.attendCall "a", RSVPCall.declineCall "b"]).attendees
        (runRSVP ⟨∅, ∅, none⟩
          [RSVPCall.attendCall "a", RSVPCall.declineCall "b"]).declined
    ∧ ("u7" ∈ (["u7"] : List String)
        ∧ getAttendanceStatus (some "u7") ⟨["u7"], ["u7"]⟩ = "attending") := by
  have hd : Disjoint (∅ : Finset String) (∅ : Finset String) := by simp
  refine ⟨hd, ?_, by decide, ?_⟩
  · exact (rsvp_mutual_exclusion ⟨∅, ∅, none⟩
      [RSVPCall.attendCall "a", RSVPCall.declineCall "b"] "x" none ⟨[], []⟩).1 hd
  · exact (rsvp_mutual_exclusion ⟨∅, ∅, none⟩ [] "x" (some "u7")
      ⟨["u7"], ["u7"]⟩).2.2 (by decide)

/-- Helper: from a state below capacity, attending a list of distinct fresh
users succeeds throughout and accumulates exactly those users. -/
lemma attendAll_fills (us : List String) : ∀ (e : EventState) (k : Nat),
    e.maxParticipants = some k → us.Nodup →
    (∀ u ∈ us, u ∉ e.attendees) →
    e.attendees.card + us.length ≤ k →
    ∃ e2, attendAll e us = Except.ok e2
      ∧ e2.attendees = e.attendees ∪ us.toFinset
      ∧ e2.maxParticipants = some k := by
  induction us with
  | nil =>
      intro e k hk _ _ _
      exact ⟨e, rfl, by simp, hk⟩
  | cons u rest ih =>
      intro e k hk hnd hnotin hcard
      have hu : u ∉ e.attendees := hnotin u (List.mem_cons_self u rest)
      have hlt : e.attendees.card < k := by
        simp only [List.length_cons] at hcard
        omega
      have hfull : eventFull e = false := by
        simp only [eventFull, hk, decide_eq_false_iff_not]
        omega
      have hcond : ¬ (eventFull e = true ∧ u ∉ e.attendees) := by
        rintro ⟨h1, _⟩
        rw [hfull] at h1
        exact Bool.noConfusion h1
      have hstep : attend u e = Except.ok
          { e with attendees := insert u e.attendees,
                   declined := e.declined.erase u } := by
        unfold attend
        exact if_neg hcond
      have hndrest := (List.nodup_cons.mp hnd).2
      have hufresh := (List.nodup_cons.mp hnd).1
      obtain ⟨e2, hrun, hatt, hmax⟩ := ih
        { e with attendees := insert u e.attendees,
                 declined := e.declined.erase u } k hk hndrest
        (by
          intro v hv
          simp only [Finset.mem_insert, not_or]
          exact ⟨fun hvu => hufresh (hvu ▸ hv), hnotin v (List.mem_cons_of_mem u hv)⟩)
        (by
          simp only [Finset.card_insert_of_not_mem hu]
          simp only [List.length_cons] at hcard
          omega)
      refine ⟨e2, ?_, ?_, hmax⟩
      · simp only [attendAll, hstep]
        exact hrun
      · rw [hatt]
        simp [Finset.insert_union, Finset.union_insert, List.toFinset_cons]

/-- C3: for an event with `maxParticipants = k`, after `k` successful attends
by distinct users (from an empty attendee set) a further attend by a fresh
user fails with `Capacity` — the `Except.error` result carries no new state,
so the event is unchanged — while an attend by a user already attending
succeeds and leaves `attendees` exactly as it was (set semantics, no
double-count). -/
theorem attend_capacity_enforced (k : Nat) (us : List String) (u : String)
    (hnd : us.Nodup) (hlen : us.length = k) (hu : u ∉ us) :
    ∃ e2, attendAll ⟨∅, ∅, some k⟩ us = Except.ok e2
      ∧ e2.attendees.card = k
      ∧ attend u e2 = Except.error AttendError.Capacity
      ∧ ∀ v ∈ us, ∃ e3, attend v e2 = Except.ok e3
          ∧ e3.attendees = e2.attendees := by
  obtain ⟨e2, hrun, hatt, hmax⟩ :=
    attendAll_fills us ⟨∅, ∅, some k⟩ k rfl hnd (by simp) (by simp [hlen])
  have hattFin : e2.attendees = us.toFinset := by simpa using hatt
  have hcard : e2.attendees.card = k := by
    rw [hattFin, List.toFinset_card_of_nodup hnd, hlen]
  refine ⟨e2, hrun, hcard, ?_, ?_⟩
  · have hfull : eventFull e2 = true := by
      simp [eventFull, hmax, hcard]
    have hnotmem : u ∉ e2.attendees := by
      rw [hattFin]
      simpa using hu
    unfold attend
    rw [if_pos ⟨hfull, hnotmem⟩]
  · intro v hv
    have hvmem : v ∈ e2.attendees := by
      rw [hattFin]
      exact List.mem_toFinset.mpr hv
    have hcond : ¬ (eventFull e2 = true ∧ v ∉ e2.attendees) := fun hc => hc.2 hvmem
    refine ⟨{ e2 with attendees := insert v e2.attendees,
                      declined := e2.declined.erase v }, ?_, ?_⟩
    · unfold attend
      exact if_neg hcond
    · simp [Finset.insert_eq_self.mpr hvmem]

/-- Closed instance of C3's theorem: with capacity 2 filled by `a` and `b`,
a further attend by `c` fails with `Capacity` and re-attends by `a` or `b`
leave the attendee set as it is. -/
theorem attend_capacity_enforced_witness :
    (["a", "b"] : List String).Nodup
    ∧ (["a", "b"] : List String).length = 2
    ∧ "c" ∉ (["a", "b"] : List String)
    ∧ ∃ e2, attendAll ⟨∅, ∅, some 2⟩ ["a", "b"] = Except.ok e2
        ∧ e2.attendees.card = 2
        ∧ attend "c" e2 = Except.error AttendError.Capacity
        ∧ ∀ v ∈ (["a", "b"] : List String), ∃ e3, attend v e2 = Except.ok e3
            ∧ e3.attendees = e2.attendees :=
  ⟨by decide, by decide, by decide,
   attend_capacity_enforced 2 ["a", "b"] "c" (by decide) (by decide) (by decide)⟩

end ConnectHub
